import Mathlib

/-!
Verification of the Torplex frontend (Next.js dashboard) and of the
spec-described acquisition core, as a shallow embedding in Lean 4.

Embedded source files:
* `frontend/src/lib/api.ts` (the API client: `fetchAPI`, the `api` object)
* `frontend/src/app/page.tsx` (Dashboard, `handleResetAll`, `statusConfig`)
* `frontend/src/app/library/page.tsx` (`getPageNumbers`)
* `frontend/src/app/show/[id]/page.tsx` (`stateColors`, `episodesBySeason`)
* `frontend/src/components/RetryDropdown.tsx` (`handleRetry`, `menuItems`)
Components absent from the frontend sources (Candidate Ranker, Provider
Resolver, show aggregation) are modelled from the spec, and marked so.
-/

namespace Torplex

/-! ## HTTP layer: `fetchAPI` (api.ts lines 84-100) -/

/-- An HTTP verb as used by the dashboard's API client. -/
inductive HttpMethod
  | GET
  | POST
  | PATCH
  | DELETE
deriving DecidableEq, Repr

/-- An HTTP response as observed by `fetchAPI`: the `ok` flag, numeric
status, status text, and the decoded JSON body (the TypeScript function
returns `response.json()` typed as `T`). -/
structure HttpResponse (α : Type) where
  ok : Bool
  status : Nat
  statusText : String
  body : α

/-- Embedding of `fetchAPI` (api.ts): if the response is not ok it throws
`Error("API error: <status> <statusText>")`, otherwise it returns the
parsed body. -/
def fetchAPI {α : Type} (r : HttpResponse α) : Except String α :=
  if r.ok then Except.ok r.body
  else Except.error ("API error: " ++ toString r.status ++ " " ++ r.statusText)

/-! ## The `api` client object (api.ts lines 102-191) -/

/-- Method names defined on the `api` object literal in api.ts. -/
def apiMethodNames : List String :=
  ["getHealth", "getStats", "getLibrary", "getMediaItem", "createMediaItem",
   "updateMediaItem", "deleteMediaItem", "retryMediaItem", "search",
   "getTrending", "getMovieDetails", "getTvDetails", "getSettings",
   "getProviderStatus"]

/-- One network request shape the frontend can issue: the client method (or
inline fetch) it comes from, its HTTP verb, the endpoint path template (path
parameters written as `:id`), and whether the JSON body can carry a `state`
field. -/
structure ApiRequest where
  source : String
  verb : HttpMethod
  path : String
  bodyHasState : Bool
deriving DecidableEq, Repr

/-- Request issued by `api.updateMediaItem` (api.ts lines 144-149): a PATCH
whose body type is `\x7b state?: string; is_anime?: boolean \x7d`. -/
def updateMediaItemRequest : ApiRequest :=
  ⟨"updateMediaItem", HttpMethod.PATCH, "/api/library/:id", true⟩

/-- Requests the `api` client object is able to issue, one per method of the
object literal in api.ts. -/
def apiClientRequests : List ApiRequest :=
  [⟨"getHealth", HttpMethod.GET, "/api/health", false⟩,
   ⟨"getStats", HttpMethod.GET, "/api/stats", false⟩,
   ⟨"getLibrary", HttpMethod.GET, "/api/library", false⟩,
   ⟨"getMediaItem", HttpMethod.GET, "/api/library/:id", false⟩,
   ⟨"createMediaItem", HttpMethod.POST, "/api/library", false⟩,
   updateMediaItemRequest,
   ⟨"deleteMediaItem", HttpMethod.DELETE, "/api/library/:id", false⟩,
   ⟨"retryMediaItem", HttpMethod.POST, "/api/library/:id/retry", false⟩,
   ⟨"search", HttpMethod.GET, "/api/search", false⟩,
   ⟨"getTrending", HttpMethod.GET, "/api/trending", false⟩,
   ⟨"getMovieDetails", HttpMethod.GET, "/api/search/movie/:tmdbId", false⟩,
   ⟨"getTvDetails", HttpMethod.GET, "/api/search/tv/:tmdbId", false⟩,
   ⟨"getSettings", HttpMethod.GET, "/api/settings", false⟩,
   ⟨"getProviderStatus", HttpMethod.GET, "/api/settings/providers/status", false⟩]

/-- A request writes pipeline state directly when it PATCHes an item with a
body that can carry a `state` field, rather than going through a retry
endpoint. -/
def isDirectStateWrite (r : ApiRequest) : Bool :=
  decide (r.verb = HttpMethod.PATCH) && r.bodyHasState

/-- Every network request actually issued somewhere in the dashboard pages
and components: Dashboard (page.tsx), the legacy Dashboard variant, the
library page, the search page, the show detail page, the settings page, and
`RetryDropdown`. `MediaCard` and `Sidebar` issue none. -/
def dashboardIssuedRequests : List ApiRequest :=
  [⟨"getStats", HttpMethod.GET, "/api/stats", false⟩,
   ⟨"getLibrary", HttpMethod.GET, "/api/library", false⟩,
   ⟨"getMediaItem", HttpMethod.GET, "/api/library/:id", false⟩,
   ⟨"createMediaItem", HttpMethod.POST, "/api/library", false⟩,
   ⟨"search", HttpMethod.GET, "/api/search", false⟩,
   ⟨"getTrending", HttpMethod.GET, "/api/trending", false⟩,
   ⟨"getSettings", HttpMethod.GET, "/api/settings", false⟩,
   ⟨"getProviderStatus", HttpMethod.GET, "/api/settings/providers/status", false⟩,
   ⟨"showPage.episodes", HttpMethod.GET, "/api/library/:id/episodes", false⟩,
   ⟨"showPage.retryEpisode", HttpMethod.POST, "/api/library/:showId/episodes/:id/retry", false⟩,
   ⟨"RetryDropdown.episodeRetry", HttpMethod.POST, "/api/library/:showId/episodes/:id/retry", false⟩,
   ⟨"RetryDropdown.retryAllEpisodes", HttpMethod.POST, "/api/library/:id/retry-all-episodes?mode=failed", false⟩,
   ⟨"RetryDropdown.rescanMount", HttpMethod.POST, "/api/library/:id/rescan-mount", false⟩,
   ⟨"RetryDropdown.itemRetryForce", HttpMethod.POST, "/api/library/:id/retry?mode=force", false⟩,
   ⟨"RetryDropdown.itemRetrySymlink", HttpMethod.POST, "/api/library/:id/retry?mode=symlink", false⟩]

/-! ## The Dashboard `handleResetAll` handler (page.tsx lines 43-57) -/

/-- Name of the method `handleResetAll` invokes on the `api` object:
the handler body is `const result = await api.retryAllMedia()`. -/
def handleResetAllMethod : String := "retryAllMedia"

/-- Outcome of a run of `handleResetAll`: either the reset request was issued
to the backend, or control reached the catch branch (the
"Reset failed" alert) and no reset request was issued. -/
inductive ResetOutcome
  | resetIssued
  | failedAlert
deriving DecidableEq, Repr

/-- Embedding of `handleResetAll`: in JavaScript, invoking a property that is
not defined on the `api` object throws a `TypeError`, which the handler's
`catch` turns into the failure alert; only when the method exists is the
reset request issued. -/
def handleResetAll : ResetOutcome :=
  if handleResetAllMethod ∈ apiMethodNames then ResetOutcome.resetIssued
  else ResetOutcome.failedAlert

/-! ## Lifecycle state vocabulary (api.ts `Stats`, show page `stateColors`,
`StatusBadge.statusConfig`) -/

/-- Keys of `Stats.counts` (api.ts lines 39-49), in source order. -/
def statsCountKeys : List String :=
  ["requested", "indexed", "scraped", "downloading", "downloaded",
   "symlinked", "completed", "failed", "paused"]

/-- Keys of the show page's `stateColors` record, in source order. -/
def stateColorKeys : List String :=
  ["completed", "symlinked", "downloaded", "downloading", "scraped",
   "indexed", "requested", "failed", "paused"]

/-- Keys of `statusConfig` in the StatusBadge component, in source order. -/
def statusConfigKeys : List String :=
  ["requested", "indexed", "scraped", "downloading", "downloaded",
   "symlinked", "completed", "failed", "paused"]

/-- The eight lifecycle states named by the spec (§4.4). -/
def specStates : List String :=
  ["requested", "indexed", "scraped", "downloaded", "symlinked",
   "completed", "failed", "paused"]

/-- The nine lifecycle states the program actually stores, counts and
displays: the spec's eight plus `downloading` (between `scraped` and
`downloaded` in the counts record). -/
def pipelineStates : List String :=
  ["requested", "indexed", "scraped", "downloading", "downloaded",
   "symlinked", "completed", "failed", "paused"]

/-! ## RetryDropdown (RetryDropdown.tsx lines 19-58) -/

/-- Target kind of a `RetryDropdown`, the component's `itemType` prop. -/
inductive ItemType
  | movie
  | show
  | episode
deriving DecidableEq, Repr

/-- Menu entries offered by the dropdown, keyed per the `menuItems`
definition: shows get rescan-mount / all-episodes / force, everything else
gets force / symlink. -/
def menuModes : ItemType → List String
  | ItemType.show => ["rescan-mount", "all-episodes", "force"]
  | _ => ["force", "symlink"]

/-- A structured view of the retry request URL built in `handleRetry`. -/
inductive RetryRequest
  | episodeRetry (showId itemId : Nat)
  | retryAllEpisodes (itemId : Nat) (mode : String)
  | rescanMount (itemId : Nat)
  | itemRetry (itemId : Nat) (mode : String)
deriving DecidableEq, Repr

/-- Embedding of the URL dispatch in `handleRetry`: episodes with a `showId`
go to the per-episode retry endpoint (the clicked mode is dropped from the
URL), shows dispatch `all-episodes` to `retry-all-episodes?mode=failed` and
`rescan-mount` to its endpoint, and everything else goes to
`/retry?mode=<mode>`. -/
def handleRetry (itemType : ItemType) (showId : Option Nat) (itemId : Nat)
    (mode : String) : RetryRequest :=
  match itemType, showId with
  | ItemType.episode, some sid => RetryRequest.episodeRetry sid itemId
  | _, _ =>
    if itemType = ItemType.show ∧ mode = "all-episodes" then
      RetryRequest.retryAllEpisodes itemId "failed"
    else if itemType = ItemType.show ∧ mode = "rescan-mount" then
      RetryRequest.rescanMount itemId
    else
      RetryRequest.itemRetry itemId mode

/-- The closed command set of §4.4, as a predicate on retry requests: the
mode-keyed commands `force` and `symlink` per item, `retry-all-episodes`
with mode `failed`, and `rescan-mount` (the dashboard's separate global
reset is modelled by `handleResetAll`). The per-episode retry endpoint is
hit without any mode, so a mode-less `episodeRetry` request is none of the
five enumerated mode-keyed commands and lies outside the set. -/
def inSpecRetrySet : RetryRequest → Bool
  | RetryRequest.itemRetry _ m => decide (m = "force") || decide (m = "symlink")
  | RetryRequest.retryAllEpisodes _ m => decide (m = "failed")
  | RetryRequest.rescanMount _ => true
  | RetryRequest.episodeRetry _ _ => false

/-! ## Library pagination (library/page.tsx lines 71-89) -/

/-- An entry of the pagination strip: a page number button or the literal
`...` separator. -/
inductive PageEntry
  | page (n : Nat)
  | dots
deriving DecidableEq, Repr

/-- Embedding of `getPageNumbers`: `total` is `data.total_pages` and
`current` is `data.page`. Mirrors the three-way split on the current page
position when more than 7 pages exist. -/
def getPageNumbers (total current : Nat) : List PageEntry :=
  if total ≤ 7 then
    (List.range total).map (fun i => PageEntry.page (i + 1))
  else if current ≤ 3 then
    [PageEntry.page 1, PageEntry.page 2, PageEntry.page 3, PageEntry.page 4,
     PageEntry.dots, PageEntry.page total]
  else if total - 2 ≤ current then
    [PageEntry.page 1, PageEntry.dots, PageEntry.page (total - 3),
     PageEntry.page (total - 2), PageEntry.page (total - 1), PageEntry.page total]
  else
    [PageEntry.page 1, PageEntry.dots, PageEntry.page (current - 1),
     PageEntry.page current, PageEntry.page (current + 1), PageEntry.dots,
     PageEntry.page total]

/-! ## Episodes of a show (show page, `EpisodeData` / `episodesBySeason`) -/

/-- An episode record as delivered by `/api/library/:id/episodes`
(`EpisodeData` on the show page); only the fields the grouping and the
aggregate read. -/
structure EpisodeData where
  id : Nat
  season_number : Int
  episode_number : Int
  state : String
deriving DecidableEq, Repr

/-- Embedding of the `episodesBySeason` reduce on the show page: fold over
the episode list, appending each episode to the bucket of its
`season_number`. The record of buckets is modelled as a total function from
season number to episode list, empty-by-default (matching the
`if (!acc[season]) acc[season] = []` initialisation). -/
def episodesBySeason (eps : List EpisodeData) : Int → List EpisodeData :=
  eps.foldl
    (fun acc ep s =>
      if s = ep.season_number then acc s ++ [ep] else acc s)
    (fun _ => [])

/-! ## Candidate Ranker (spec §4.1, README "Anime Preferences") -/

/-- A discovered release candidate (spec §3): the base quality score already
combines resolution, source tier, codec and size via the fixed per-attribute
weights; the flags are the cache signal and the anime audio attributes. -/
structure Candidate where
  quality : Nat
  size : Nat
  cached : Bool
  dualAudio : Bool
  dubbed : Bool
deriving DecidableEq, Repr

/-- Largest value the combined base quality score can take (the spec fixes
per-attribute weights, so the base score is bounded). -/
def qualityCap : Nat := 1000

/-- Modelled from the spec: the cache bonus of §4.1, "a large fixed bonus",
sized to exceed any quality delta (§8 scenario: cache bonus exceeds quality
delta). -/
def cacheBonus : Nat := qualityCap + 1

/-- Modelled from the spec: the anime preference tier of README
"Anime Preferences" / spec §4.1, highest first: cached+dual-audio,
cached+dubbed, dual-audio, dubbed, cached (any audio), plain quality. -/
def animeTier (c : Candidate) : Nat :=
  if c.cached && c.dualAudio then 5
  else if c.cached && c.dubbed then 4
  else if c.dualAudio then 3
  else if c.dubbed then 2
  else if c.cached then 1
  else 0

/-- Modelled from the spec: the Ranker's score (§4.1). For anime targets the
tier bonus dominates any quality value; otherwise quality plus the cache
bonus. -/
def score (isAnime : Bool) (c : Candidate) : Nat :=
  if isAnime then animeTier c * (qualityCap + 1) + c.quality
  else c.quality + (if c.cached then cacheBonus else 0)

/-- Sort-order comparator of the Ranker: higher score first, ties broken by
size descending (§4.1); remaining ties are left to the stable sort. -/
def candBefore (isAnime : Bool) (a b : Candidate) : Bool :=
  decide (score isAnime b < score isAnime a) ||
    (decide (score isAnime a = score isAnime b) && decide (b.size ≤ a.size))

/-- Insertion step of the Ranker's stable sort. -/
def insertCand (le : Candidate → Candidate → Bool) (a : Candidate) :
    List Candidate → List Candidate
  | [] => [a]
  | b :: l => if le a b then a :: b :: l else b :: insertCand le a l

/-- Stable insertion sort used to model the Ranker's ordering. -/
def sortCands (le : Candidate → Candidate → Bool) : List Candidate → List Candidate
  | [] => []
  | a :: l => insertCand le a (sortCands le l)

/-- Modelled from the spec: `rank(candidates, target)` (§4.1), with the
target abstracted to its `is_anime` flag (the only target attribute the
scoring policy reads). -/
def rank (isAnime : Bool) (cs : List Candidate) : List Candidate :=
  sortCands (candBefore isAnime) cs

/-! ## Provider Resolver (spec §4.2) -/

/-- A storage provider client (spec §6): its configured name and, for a
given candidate, whether this provider's attempt succeeds (`true`) or ends
in a provider-level failure — auth error, quota, rejection or timeout
(`false`). -/
structure ProviderClient where
  name : String
  accepts : Candidate → Bool

/-- Opaque reference binding a resolution to the provider that holds the
data (spec §3 ProviderRef). -/
structure ProviderRef where
  provider : String
deriving DecidableEq, Repr

/-- Modelled from the spec: `resolve(candidate, providers)` (§4.2). Tries
providers strictly in the caller-supplied order; a provider-level failure
moves on to the next provider; the first acceptance returns a ProviderRef
bound to that provider. The second component records, in order, the names of
the providers actually contacted. -/
def resolve (c : Candidate) : List ProviderClient → Option ProviderRef × List String
  | [] => (none, [])
  | p :: ps =>
    if p.accepts c then (some ⟨p.name⟩, [p.name])
    else
      let r := resolve c ps
      (r.1, p.name :: r.2)

/-! ## Show aggregate completion (spec §4.4, show page `EpisodesResponse`) -/

/-- The `completed_episodes` figure of `EpisodesResponse`: how many of the
show's episodes are individually in state `completed`. -/
def completedEpisodes (eps : List EpisodeData) : Nat :=
  (eps.filter (fun e => e.state = "completed")).length

/-- Modelled from the spec: the parent show's aggregate state (§4.4) — the
parent is considered COMPLETED only when all of its episodes are, read off
the `completed_episodes` / `total_episodes` pair of `EpisodesResponse`. -/
def showAggregateCompleted (eps : List EpisodeData) : Bool :=
  decide (completedEpisodes eps = eps.length)

/-! ## Theorems -/

/-- Claim C1 (code bug): the Dashboard's `handleResetAll` handler can never
successfully issue the global reset through the API client object — the
`api` object literal defines no `retryAllMedia` method, so
`api.retryAllMedia()` throws a TypeError and every invocation ends in the
catch branch ("Reset failed") without issuing any reset request. -/
theorem handleResetAll_never_issues_reset :
    handleResetAll = ResetOutcome.failedAlert ∧
      handleResetAllMethod ∉ apiMethodNames := by
  constructor
  · decide
  · decide

/-- Claim C2 (counterexample): the claim that the dashboard's API client can
never write pipeline state directly is false — `api.updateMediaItem` PATCHes
an item with a body that can carry a `state` field, a direct state write
outside the §4.4 retry-mode commands. -/
theorem apiClient_offers_direct_state_write :
    updateMediaItemRequest ∈ apiClientRequests ∧
      isDirectStateWrite updateMediaItemRequest = true := by
  decide

/-- Claim C2 (amended): although the API client exposes the direct state
write `updateMediaItem`, no dashboard page or component ever invokes it —
every request the dashboard actually issues is a read, a create/delete, or a
§4.4 retry-mode command, and none writes pipeline state directly. -/
theorem dashboard_issues_no_direct_state_write :
    dashboardIssuedRequests.all (fun r => !isDirectStateWrite r) = true ∧
      updateMediaItemRequest ∉ dashboardIssuedRequests := by
  decide

/-- Claim C3 (counterexample): the lifecycle state vocabulary is not the
spec's eight states — `downloading` is a ninth state, counted by
`Stats.counts` yet absent from the spec's set. -/
theorem downloading_outside_spec_states :
    "downloading" ∈ statsCountKeys ∧ "downloading" ∉ specStates := by
  decide

/-- Claim C3 (amended): every state value the program counts, colours or
displays is one of exactly nine states — the spec's eight plus
`downloading` — and the three state vocabularies (`Stats.counts`,
`stateColors`, `statusConfig`) agree on that set. -/
theorem state_vocabulary_is_nine_states :
    statsCountKeys.toFinset = pipelineStates.toFinset ∧
      stateColorKeys.toFinset = pipelineStates.toFinset ∧
      statusConfigKeys.toFinset = pipelineStates.toFinset ∧
      specStates.toFinset ⊆ pipelineStates.toFinset := by
  decide

/-- Claim C4 (counterexample): the dashboard issues a command outside the
five mode-keyed §4.4 commands — clicking the episode menu's "Retry Symlink"
entry (mode `symlink`, offered for episodes) produces a mode-less POST to
the per-episode retry endpoint: the selected mode is dropped from the URL,
and the resulting request is none of force, symlink, retry-all-episodes,
rescan-mount or global reset. -/
theorem episode_retry_outside_spec_set :
    "symlink" ∈ menuModes ItemType.episode ∧
      handleRetry ItemType.episode (some 3) 5 "symlink"
        = RetryRequest.episodeRetry 3 5 ∧
      inSpecRetrySet (RetryRequest.episodeRetry 3 5) = false := by
  refine ⟨by decide, rfl, rfl⟩

/-- Claim C4 (amended): every retry command the dashboard issues for movie
and show cards — any item id and any mode offered by the menu for that item
type — belongs to the closed §4.4 command set; for episodes with a show id,
however, `handleRetry` always drops the selected mode and issues the
mode-less per-episode retry, a command outside the five enumerated
mode-keyed commands. -/
theorem handleRetry_commands_amended (itemType : ItemType)
    (showId : Option Nat) (itemId : Nat) (mode : String)
    (hmode : mode ∈ menuModes itemType) :
    (itemType ≠ ItemType.episode →
        inSpecRetrySet (handleRetry itemType showId itemId mode) = true) ∧
      (∀ sid : Nat, itemType = ItemType.episode → showId = some sid →
        handleRetry itemType showId itemId mode
            = RetryRequest.episodeRetry sid itemId ∧
          inSpecRetrySet (RetryRequest.episodeRetry sid itemId) = false) := by
  constructor
  · intro hne
    cases itemType with
    | movie =>
      simp only [menuModes, List.mem_cons, List.not_mem_nil, or_false] at hmode
      rcases hmode with rfl | rfl <;>
        cases showId <;> simp [handleRetry, inSpecRetrySet]
    | «show» =>
      simp only [menuModes, List.mem_cons, List.not_mem_nil, or_false] at hmode
      rcases hmode with rfl | rfl | rfl <;>
        cases showId <;> simp [handleRetry, inSpecRetrySet]
    | episode => exact absurd rfl hne
  · intro sid htype hsid
    subst htype
    subst hsid
    exact ⟨rfl, rfl⟩

/-- Witness for C4 (amended): the show-card "Rescan Mount" entry issues a
§4.4 command, while the episode menu's "Retry Symlink" entry issues the
mode-less per-episode retry. -/
theorem handleRetry_commands_amended_witness :
    inSpecRetrySet (handleRetry ItemType.show none 7 "rescan-mount") = true ∧
      handleRetry ItemType.episode (some 3) 5 "symlink"
        = RetryRequest.episodeRetry 3 5 :=
  ⟨(handleRetry_commands_amended ItemType.show none 7 "rescan-mount"
      (by decide)).1 (by decide),
   ((handleRetry_commands_amended ItemType.episode (some 3) 5 "symlink"
      (by decide)).2 3 rfl rfl).1⟩

/-- Claim C8: `fetchAPI` has exactly two outcomes — when the response is ok
it returns the parsed body, and when it is not ok it throws an Error whose
message carries the response's status code and status text. -/
theorem fetchAPI_two_outcomes {α : Type} (r : HttpResponse α) :
    (r.ok = true ∧ fetchAPI r = Except.ok r.body) ∨
      (r.ok = false ∧ fetchAPI r =
        Except.error ("API error: " ++ toString r.status ++ " " ++ r.statusText)) := by
  cases h : r.ok with
  | true => exact Or.inl ⟨rfl, by simp [fetchAPI, h]⟩
  | false => exact Or.inr ⟨rfl, by simp [fetchAPI, h]⟩

/-- Claim C9: for a paginated response with at least one page and a current
page in range, `getPageNumbers` yields at most 7 entries and always includes
page 1, the current page, and the last page. -/
theorem getPageNumbers_bounded_and_covering (total current : Nat)
    (h1 : 1 ≤ current) (h2 : current ≤ total) :
    (getPageNumbers total current).length ≤ 7 ∧
      PageEntry.page 1 ∈ getPageNumbers total current ∧
      PageEntry.page current ∈ getPageNumbers total current ∧
      PageEntry.page total ∈ getPageNumbers total current := by
  unfold getPageNumbers
  by_cases ht : total ≤ 7
  · simp only [if_pos ht, List.length_map, List.length_range, List.mem_map,
      List.mem_range, PageEntry.page.injEq]
    exact ⟨ht, ⟨0, by omega, by omega⟩, ⟨current - 1, by omega, by omega⟩,
      ⟨total - 1, by omega, by omega⟩⟩
  · by_cases hc : current ≤ 3
    · simp only [if_neg ht, if_pos hc]
      refine ⟨by simp, by simp, ?_, by simp⟩
      have hcur : current = 1 ∨ current = 2 ∨ current = 3 := by omega
      rcases hcur with h | h | h <;> rw [h] <;> simp
    · by_cases hd : total - 2 ≤ current
      · simp only [if_neg ht, if_neg hc, if_pos hd]
        refine ⟨by simp, by simp, ?_, by simp⟩
        have hcur : current = total - 2 ∨ current = total - 1 ∨ current = total := by
          omega
        rcases hcur with h | h | h <;> rw [h] <;> simp
      · simp only [if_neg ht, if_neg hc, if_neg hd]
        exact ⟨by simp, by simp, by simp, by simp⟩

/-- Witness for C9: on 20 total pages at current page 10 the strip has at
most 7 entries and contains pages 1, 10 and 20. -/
theorem getPageNumbers_bounded_and_covering_witness :
    (1 ≤ 10 ∧ 10 ≤ 20) ∧
      ((getPageNumbers 20 10).length ≤ 7 ∧
        PageEntry.page 1 ∈ getPageNumbers 20 10 ∧
        PageEntry.page 10 ∈ getPageNumbers 20 10 ∧
        PageEntry.page 20 ∈ getPageNumbers 20 10) :=
  ⟨by decide, getPageNumbers_bounded_and_covering 20 10 (by decide) (by decide)⟩

/-- Unrolling of the `episodesBySeason` fold over an arbitrary accumulator:
each bucket ends up as whatever the accumulator already held, followed by
the episodes of that season in input order. -/
theorem episodesBySeason_foldl_eq (eps : List EpisodeData)
    (acc : Int → List EpisodeData) (s : Int) :
    (eps.foldl
        (fun acc ep s =>
          if s = ep.season_number then acc s ++ [ep] else acc s) acc) s
      = acc s ++ eps.filter (fun e => e.season_number = s) := by
  induction eps generalizing acc with
  | nil => simp
  | cons ep l ih =>
    rw [List.foldl_cons, ih]
    by_cases h : ep.season_number = s
    · simp [h, List.filter_cons]
    · have h2 : ¬s = ep.season_number := fun hs => h hs.symm
      simp [h, h2, List.filter_cons]

/-- Bucket sizes are season occurrence counts in the season column. -/
theorem episodesBySeason_length_eq_count (eps : List EpisodeData) (s : Int) :
    (eps.filter (fun e => e.season_number = s)).length
      = (eps.map (fun e => e.season_number)).count s := by
  rw [← List.countP_eq_length_filter, List.count, List.countP_map]
  rfl

/-- Claim C10: `episodesBySeason` is a partition of the episode list — each
bucket is exactly the episodes of its season in input order (hence a
sublist, preserving relative order), every member of a bucket carries that
season number and comes from the input, and the bucket sizes over the
distinct seasons sum to the length of the input. -/
theorem episodesBySeason_partition (eps : List EpisodeData) :
    (∀ s : Int, episodesBySeason eps s
        = eps.filter (fun e => e.season_number = s)) ∧
      (∀ s : Int, ∀ e ∈ episodesBySeason eps s,
        e.season_number = s ∧ e ∈ eps) ∧
      (∀ s : Int, (episodesBySeason eps s).Sublist eps) ∧
      ((eps.map (fun e => e.season_number)).dedup.map
          (fun s => (episodesBySeason eps s).length)).sum = eps.length := by
  have hfilter : ∀ s : Int, episodesBySeason eps s
      = eps.filter (fun e => e.season_number = s) := by
    intro s
    unfold episodesBySeason
    rw [episodesBySeason_foldl_eq]
    simp
  refine ⟨hfilter, ?_, ?_, ?_⟩
  · intro s e he
    rw [hfilter] at he
    have h := List.mem_filter.mp he
    exact ⟨by simpa using h.2, h.1⟩
  · intro s
    rw [hfilter]
    exact List.filter_sublist eps
  · have hmap :
        (eps.map (fun e => e.season_number)).dedup.map
            (fun s => (episodesBySeason eps s).length)
          = (eps.map (fun e => e.season_number)).dedup.map
              (fun s => (eps.map (fun e => e.season_number)).count s) := by
      refine List.map_eq_map_iff.mpr ?_
      intro s _
      rw [hfilter s, episodesBySeason_length_eq_count]
    rw [hmap, List.sum_map_count_dedup_eq_length, List.length_map]

/-- Witness for C10: on a three-episode show spanning two seasons, the
season-1 bucket is the two season-1 episodes in input order. -/
theorem episodesBySeason_partition_witness :
    episodesBySeason
        [⟨1, 1, 1, "completed"⟩, ⟨2, 2, 1, "scraped"⟩, ⟨3, 1, 2, "failed"⟩] 1
      = [⟨1, 1, 1, "completed"⟩, ⟨3, 1, 2, "failed"⟩] := by
  rw [(episodesBySeason_partition
    [⟨1, 1, 1, "completed"⟩, ⟨2, 2, 1, "scraped"⟩, ⟨3, 1, 2, "failed"⟩]).1 1]
  decide

/-- Exhaustion half of the resolver contract: when every configured
provider fails at provider level, `resolve` fails, after contacting all of
them in order. -/
theorem resolve_exhausted (c : Candidate) :
    ∀ ps : List ProviderClient, (∀ p ∈ ps, p.accepts c = false) →
      resolve c ps = (none, ps.map (fun p => p.name)) := by
  intro ps
  induction ps with
  | nil => intro _; rfl
  | cons p t ih =>
    intro h
    have hp : p.accepts c = false := h p (List.mem_cons_self p t)
    have ht : resolve c t = (none, t.map (fun p => p.name)) :=
      ih fun q hq => h q (List.mem_cons_of_mem p hq)
    simp [resolve, hp, ht]

/-- First-acceptor half of the resolver contract: with every provider
before `p` failing and `p` accepting, `resolve` succeeds bound to `p`,
having contacted exactly the providers up to and including `p` — providers
after `p` are never contacted. -/
theorem resolve_first_acceptor (c : Candidate) :
    ∀ (ps1 : List ProviderClient) (p : ProviderClient)
      (ps2 : List ProviderClient),
      (∀ q ∈ ps1, q.accepts c = false) → p.accepts c = true →
      resolve c (ps1 ++ p :: ps2)
        = (some ⟨p.name⟩, ps1.map (fun q => q.name) ++ [p.name]) := by
  intro ps1
  induction ps1 with
  | nil =>
    intro p ps2 _ hp
    simp [resolve, hp]
  | cons q t ih =>
    intro p ps2 hq hp
    have hqf : q.accepts c = false := hq q (List.mem_cons_self q t)
    have ht := ih p ps2 (fun r hr => hq r (List.mem_cons_of_mem q hr)) hp
    simp [resolve, hqf, ht]

/-- Claim C6: for every candidate and ordered provider list, `resolve`
attempts providers strictly in the given order, moves past any
provider-level failure, returns success bound to the first accepting
provider without contacting any later one, and fails only when every
configured provider has been exhausted. -/
theorem resolve_fallback_contract (c : Candidate) (ps : List ProviderClient) :
    ((∀ p ∈ ps, p.accepts c = false) →
        resolve c ps = (none, ps.map (fun p => p.name))) ∧
      (∀ (ps1 : List ProviderClient) (p : ProviderClient)
          (ps2 : List ProviderClient),
        ps = ps1 ++ p :: ps2 →
        (∀ q ∈ ps1, q.accepts c = false) → p.accepts c = true →
        resolve c ps
          = (some ⟨p.name⟩, ps1.map (fun q => q.name) ++ [p.name])) := by
  refine ⟨resolve_exhausted c ps, ?_⟩
  intro ps1 p ps2 hsplit h1 hp
  rw [hsplit]
  exact resolve_first_acceptor c ps1 p ps2 h1 hp

/-- Witness for C6, the spec's own fallback scenario with a fourth provider
appended: providers 1 and 2 reject, provider 3 accepts — resolution is bound
to provider 3 and provider 4 is never contacted. -/
theorem resolve_fallback_contract_witness :
    resolve ⟨0, 0, false, false, false⟩
        [⟨"p1", fun _ => false⟩, ⟨"p2", fun _ => false⟩,
         ⟨"p3", fun _ => true⟩, ⟨"p4", fun _ => true⟩]
      = (some ⟨"p3"⟩, ["p1", "p2", "p3"]) := by
  have h := (resolve_fallback_contract ⟨0, 0, false, false, false⟩
    [⟨"p1", fun _ => false⟩, ⟨"p2", fun _ => false⟩,
     ⟨"p3", fun _ => true⟩, ⟨"p4", fun _ => true⟩]).2
    [⟨"p1", fun _ => false⟩, ⟨"p2", fun _ => false⟩]
    ⟨"p3", fun _ => true⟩ [⟨"p4", fun _ => true⟩] rfl
  simpa using h (by
    intro q hq
    rcases List.mem_cons.mp hq with h1 | h1
    · rw [h1]
    · rcases List.mem_cons.mp h1 with h2 | h2
      · rw [h2]
      · simp at h2) rfl

/-- Claim C7: for a show with at least one episode, the aggregate is
COMPLETED exactly when every episode is individually `completed`, and a
single non-completed episode keeps the show non-terminal. -/
theorem showCompleted_iff_all_episodes (eps : List EpisodeData)
    (_hne : eps ≠ []) :
    (showAggregateCompleted eps = true ↔
        ∀ e ∈ eps, e.state = "completed") ∧
      ((∃ e ∈ eps, e.state ≠ "completed") →
        showAggregateCompleted eps = false) := by
  have hiff : showAggregateCompleted eps = true ↔
      ∀ e ∈ eps, e.state = "completed" := by
    unfold showAggregateCompleted completedEpisodes
    rw [decide_eq_true_iff, List.filter_length_eq_length]
    simp
  refine ⟨hiff, ?_⟩
  rintro ⟨e, he, hstate⟩
  rcases h : showAggregateCompleted eps with _ | _
  · rfl
  · exact absurd (hiff.mp h e he) hstate

/-- Witness for C7: a ten-episode show with nine `completed` episodes is not
aggregate-COMPLETED. -/
theorem showCompleted_iff_all_episodes_witness :
    showAggregateCompleted
        [⟨1, 1, 1, "completed"⟩, ⟨2, 1, 2, "completed"⟩,
         ⟨3, 1, 3, "completed"⟩, ⟨4, 1, 4, "completed"⟩,
         ⟨5, 1, 5, "completed"⟩, ⟨6, 1, 6, "completed"⟩,
         ⟨7, 1, 7, "completed"⟩, ⟨8, 1, 8, "completed"⟩,
         ⟨9, 1, 9, "completed"⟩, ⟨10, 1, 10, "failed"⟩] = false :=
  (showCompleted_iff_all_episodes _ (by decide)).2
    ⟨⟨10, 1, 10, "failed"⟩, by decide, by decide⟩

/-- Inserting into the Ranker's sort permutes the element onto the list. -/
theorem insertCand_perm (le : Candidate → Candidate → Bool) (a : Candidate) :
    ∀ l : List Candidate, (insertCand le a l).Perm (a :: l) := by
  intro l
  induction l with
  | nil => simp [insertCand]
  | cons b t ih =>
    rw [insertCand]
    by_cases h : le a b
    · rw [if_pos h]
    · rw [if_neg h]
      exact (ih.cons b).trans (List.Perm.swap a b t)

/-- The Ranker's sort is a permutation of its input. -/
theorem sortCands_perm (le : Candidate → Candidate → Bool) :
    ∀ l : List Candidate, (sortCands le l).Perm l := by
  intro l
  induction l with
  | nil => simp [sortCands]
  | cons a t ih =>
    rw [sortCands]
    exact (insertCand_perm le a (sortCands le t)).trans (ih.cons a)

/-- The Ranker's comparator is total. -/
theorem candBefore_total (t : Bool) (a b : Candidate) :
    candBefore t a b = true ∨ candBefore t b a = true := by
  simp only [candBefore, Bool.or_eq_true, Bool.and_eq_true, decide_eq_true_eq]
  omega

/-- The Ranker's comparator is transitive. -/
theorem candBefore_trans (t : Bool) {a b c : Candidate}
    (h1 : candBefore t a b = true) (h2 : candBefore t b c = true) :
    candBefore t a c = true := by
  simp only [candBefore, Bool.or_eq_true, Bool.and_eq_true,
    decide_eq_true_eq] at h1 h2 ⊢
  omega

/-- Insertion preserves sortedness for a total transitive comparator. -/
theorem pairwise_insertCand (le : Candidate → Candidate → Bool)
    (htot : ∀ a b, le a b = true ∨ le b a = true)
    (htrans : ∀ {a b c}, le a b = true → le b c = true → le a c = true)
    (a : Candidate) :
    ∀ l : List Candidate, l.Pairwise (fun x y => le x y = true) →
      (insertCand le a l).Pairwise (fun x y => le x y = true) := by
  intro l
  induction l with
  | nil => simp [insertCand]
  | cons b t ih =>
    intro hl
    rw [insertCand]
    rcases List.pairwise_cons.mp hl with ⟨hb, ht⟩
    by_cases h : le a b
    · rw [if_pos h]
      refine List.pairwise_cons.mpr ⟨?_, hl⟩
      intro x hx
      rcases List.mem_cons.mp hx with rfl | hx
      · exact h
      · exact htrans h (hb x hx)
    · rw [if_neg h]
      have hba : le b a = true := by
        rcases htot a b with h1 | h1
        · exact absurd h1 h
        · exact h1
      refine List.pairwise_cons.mpr ⟨?_, ih ht⟩
      intro x hx
      have hx2 : x ∈ a :: t := (insertCand_perm le a t).mem_iff.mp hx
      rcases List.mem_cons.mp hx2 with rfl | hx2
      · exact hba
      · exact hb x hx2

/-- The Ranker's sort output is sorted by the comparator. -/
theorem pairwise_sortCands (le : Candidate → Candidate → Bool)
    (htot : ∀ a b, le a b = true ∨ le b a = true)
    (htrans : ∀ {a b c}, le a b = true → le b c = true → le a c = true) :
    ∀ l : List Candidate,
      (sortCands le l).Pairwise (fun x y => le x y = true) := by
  intro l
  induction l with
  | nil => simp [sortCands]
  | cons a t ih =>
    rw [sortCands]
    exact pairwise_insertCand le htot htrans a (sortCands le t) ih

/-- With bounded quality scores, a larger or equal anime score forces a
larger or equal anime preference tier. -/
theorem animeTier_le_of_score_le {a b : Candidate}
    (ha : a.quality ≤ qualityCap) (hb : b.quality ≤ qualityCap)
    (h : score true b ≤ score true a) : animeTier b ≤ animeTier a := by
  simp only [score, if_pos, qualityCap] at h
  simp only [qualityCap] at ha hb
  omega

/-- Pointwise strengthening of a Pairwise relation using membership. -/
theorem pairwise_imp_of_mem {R S : Candidate → Candidate → Prop} :
    ∀ {l : List Candidate}, (∀ a ∈ l, ∀ b ∈ l, R a b → S a b) →
      l.Pairwise R → l.Pairwise S := by
  intro l
  induction l with
  | nil => intro _ _; exact List.Pairwise.nil
  | cons a t ih =>
    intro h hp
    rcases List.pairwise_cons.mp hp with ⟨ha, ht⟩
    refine List.pairwise_cons.mpr ⟨?_, ih ?_ ht⟩
    · intro b hb
      exact h a (List.mem_cons_self a t) b (List.mem_cons_of_mem a hb) (ha b hb)
    · intro x hx y hy hr
      exact h x (List.mem_cons_of_mem a hx) y (List.mem_cons_of_mem a hy) hr

/-- Claim C5: for anime targets with bounded base quality scores, `rank`
orders candidates by non-increasing anime preference tier
(cached+dual-audio, then cached+dubbed, then dual-audio, then dubbed, then
cached with any audio, then rest); in particular a cached dual-audio
candidate ranks before a higher-raw-quality single-audio candidate. -/
theorem rank_anime_preference (cs : List Candidate)
    (hq : ∀ c ∈ cs, c.quality ≤ qualityCap) :
    (rank true cs).Pairwise (fun a b => animeTier b ≤ animeTier a) ∧
      (∀ a b : Candidate, a.cached = true → a.dualAudio = true →
        b.dualAudio = false → b.dubbed = false →
        a.quality < b.quality → b.quality ≤ qualityCap →
        rank true [b, a] = [a, b]) := by
  constructor
  · have hperm := sortCands_perm (candBefore true) cs
    have hq2 : ∀ c ∈ sortCands (candBefore true) cs, c.quality ≤ qualityCap :=
      fun c hc => hq c (hperm.mem_iff.mp hc)
    have hpair := pairwise_sortCands (candBefore true) (candBefore_total true)
      (fun h1 h2 => candBefore_trans true h1 h2) cs
    refine pairwise_imp_of_mem ?_ hpair
    intro a ha b hb hle
    have hsc : score true b ≤ score true a := by
      simp only [candBefore, Bool.or_eq_true, Bool.and_eq_true,
        decide_eq_true_eq] at hle
      omega
    exact animeTier_le_of_score_le (hq2 a ha) (hq2 b hb) hsc
  · intro a b hc hd hnd hndub _hqlt hqb
    have hta : animeTier a = 5 := by simp [animeTier, hc, hd]
    have htb : animeTier b ≤ 1 := by
      cases hcb : b.cached <;> simp [animeTier, hnd, hndub, hcb]
    have hsa : score true a = 5 * (qualityCap + 1) + a.quality := by
      simp [score, hta]
    have hsb : score true b = animeTier b * (qualityCap + 1) + b.quality := by
      simp [score]
    have hnot : ¬candBefore true b a = true := by
      intro hcontra
      simp only [candBefore, Bool.or_eq_true, Bool.and_eq_true,
        decide_eq_true_eq, hsa, hsb, qualityCap] at hcontra
      simp only [qualityCap] at hqb
      omega
    have hfalse : candBefore true b a = false := by
      cases hval : candBefore true b a
      · rfl
      · exact absurd hval hnot
    simp [rank, sortCands, insertCand, hfalse]

/-- Witness for C5: a cached dual-audio candidate of quality 100 outranks a
plain candidate of quality 900 for an anime target. -/
theorem rank_anime_preference_witness :
    rank true [⟨900, 0, false, false, false⟩, ⟨100, 0, true, true, false⟩]
      = [⟨100, 0, true, true, false⟩, ⟨900, 0, false, false, false⟩] :=
  (rank_anime_preference
      [⟨900, 0, false, false, false⟩, ⟨100, 0, true, true, false⟩]
      (by decide)).2
    ⟨100, 0, true, true, false⟩ ⟨900, 0, false, false, false⟩
    rfl rfl rfl rfl (by decide) (by decide)

end Torplex
